import Mathlib

set_option maxHeartbeats 1000000
set_option linter.unusedVariables false

/-!
Shallow embedding of the diagnostics layer of a gridded-simulation driver
(source file `driver/pace/driver/diagnostics.py`): configuration validation
(`DiagnosticsConfig.__post_init__`), the per-timestep record assembly of
`MonitorDiagnostics.store`, derived-diagnostic resolution
(`MonitorDiagnostics._get_derived_state`) and the column-integral kernel
(`_compute_column_integral`).

Modelling conventions: machine floats are modelled as integers (the claims
under study concern metadata, control flow and index ranges, not rounding);
a numpy array is modelled as a total function on multi-indices together
with an explicit padded shape, and numpy basic-slice clamping is made
explicit; Python exceptions become `Except` values; Python dicts become
insertion-ordered association lists with overwrite-in-place semantics.
-/

deriving instance DecidableEq for Except

/-- Python exception kinds raised by the embedded code paths. -/
inductive PyError where
  | valueError
  | attributeError
  | notImplementedError
  | assertionError
  | indexError
deriving DecidableEq

/-- Model of `Union[datetime, timedelta]`: the constructor records which of
the two types the value carries, so preservation of the type through
`store` is observable. -/
inductive Time where
  | datetime (v : Int)
  | timedelta (v : Int)
deriving DecidableEq

/-- Model of `pace.util.Quantity`: a padded numeric array (total function on
multi-indices plus an explicit padded `shape`), dimension tags, the
`origin`/`extent` description of the valid sub-domain, and units. -/
structure Quantity where
  data : List Nat → Int
  shape : List Nat
  dims : List String
  origin : List Nat
  extent : List Nat
  units : String

instance : Inhabited Quantity :=
  ⟨{ data := fun _ => 0, shape := [], dims := [], origin := [], extent := [],
     units := "" }⟩

/-- Quantity invariant from the data model: `dims`, `origin` and `extent`
have equal length. -/
def quantityInvariant (q : Quantity) : Prop :=
  q.dims.length = q.origin.length ∧ q.origin.length = q.extent.length

/-- Boolean form of `quantityInvariant`, for concrete evaluation. -/
def quantityInvariantB (q : Quantity) : Bool :=
  q.dims.length == q.origin.length && q.origin.length == q.extent.length

/-- Model of `pace.util.Z_DIM`, the designated vertical dimension tag. -/
def Z_DIM : String := "z"

/-- Python `s.startswith(p)`, computed on the character lists. -/
def pyStartswith (s p : String) : Bool :=
  p.toList.isPrefixOf s.toList

/-- Python `name[len("column_integrated_"):]`. -/
def stripColumnIntegrated (name : String) : String :=
  String.mk (name.toList.drop ("column_integrated_".toList.length))

/-- Warning text of `_get_derived_state` for an unsupported derived name. -/
def unsupportedMsg (name : String) : String :=
  name ++ " is not a supported diagnostic variable."

/-- A value stored in the monitor mapping: either the verbatim `time` value
or a looked-up / computed quantity. -/
inductive StoredValue where
  | time (t : Time)
  | quant (q : Quantity)

/-- One of the two sub-states of `DriverState`: attribute name to quantity.
Attribute names of a dataclass are unique, so an association list with
first-match lookup is a faithful model of `getattr`. -/
structure SubState where
  attrs : List (String × Quantity)

/-- Model of `DriverState` as consumed here: its two sub-states. -/
structure DriverState where
  dycore_state : SubState
  physics_state : SubState

/-- Lookup in a Python-dict model (insertion-ordered association list with
unique keys): the value at the first entry whose key matches. -/
def dictLookup {V : Type} : List (String × V) → String → Option V
  | [], _ => none
  | p :: rest, k => if p.1 = k then some p.2 else dictLookup rest k

/-- Python `getattr(sub_state, name)` returning `none` where Python raises
`AttributeError`. -/
def getattrOpt (s : SubState) (name : String) : Option Quantity :=
  dictLookup s.attrs name

/-- Assignment `d[k] = v` on a Python-dict model: overwrite in place when
the key exists (position preserved), otherwise append. -/
def dictSet {V : Type} (d : List (String × V)) (k : String) (v : V) :
    List (String × V) :=
  if (dictLookup d k).isSome then
    d.map (fun p => if p.1 = k then (k, v) else p)
  else
    d ++ [(k, v)]

/-- Replace the axis-2 entry of a shape by `m`, as numpy basic slicing along
axis 2 does to an array's shape. -/
def setAxis2 (shape : List Nat) (m : Nat) : List Nat :=
  shape.take 2 ++ [m] ++ shape.drop 3

/-- Shallow embedding of `_compute_column_integral(name, q_in, delp)`.

Mirrors the source line by line: `assert len(q_in.dims) > 2`; the
`NotImplementedError` when `q_in.dims[2]` is not the vertical tag; the
`IndexError`s Python raises when `q_in.origin[2]` / `q_in.extent[2]` or a
third array axis is missing; numpy slice clamping of
`slice(q_in.origin[2], q_in.origin[2] + q_in.extent[2])` against each
array's own axis-2 length; the shape agreement numpy's elementwise product
requires; and the result `Quantity` built with dims `q_in.dims[:2] +
q_in.dims[3:]`, origin `q_in.metadata.origin[0:2]`, extent
`(q_in.metadata.extent[0], q_in.metadata.extent[1])` and units
`"kg/m**2"`. -/
def computeColumnIntegral (name : String) (q_in delp : Quantity) :
    Except PyError Quantity :=
  if q_in.dims.length ≤ 2 then .error .assertionError
  else if q_in.dims.getD 2 "" ≠ Z_DIM then .error .notImplementedError
  else if q_in.origin.length < 3 ∨ q_in.extent.length < 3 then
    .error .indexError
  else if q_in.shape.length < 3 ∨ delp.shape.length < 3 then
    .error .indexError
  else
    let oz := q_in.origin.getD 2 0
    let ez := q_in.extent.getD 2 0
    let nq := q_in.shape.getD 2 0
    let nd := delp.shape.getD 2 0
    let loQ := min oz nq
    let lenQ := min (oz + ez) nq - loQ
    let loD := min oz nd
    let lenD := min (oz + ez) nd - loD
    if setAxis2 q_in.shape lenQ ≠ setAxis2 delp.shape lenD then
      .error .valueError
    else
      .ok { data := fun idx =>
              Finset.sum (Finset.range lenQ) (fun t =>
                q_in.data (idx.take 2 ++ [loQ + t] ++ idx.drop 2) *
                  delp.data (idx.take 2 ++ [loD + t] ++ idx.drop 2)),
            shape := q_in.shape.take 2 ++ q_in.shape.drop 3,
            dims := q_in.dims.take 2 ++ q_in.dims.drop 3,
            origin := q_in.origin.take 2,
            extent := [q_in.extent.getD 0 0, q_in.extent.getD 1 0],
            units := "kg/m**2" }

/-- Model of the validated `DiagnosticsConfig` record. -/
structure DiagnosticsConfig where
  path : Option String
  output_format : String
  time_chunk_size : Int
  names : List String
  derived_names : List String
deriving DecidableEq

/-- Shallow embedding of `DiagnosticsConfig` construction: the dataclass
field assignment followed by `__post_init__`, whose two checks run at
construction time, before any run-time work. -/
def mkDiagnosticsConfig (path : Option String) (output_format : String)
    (time_chunk_size : Int) (names derived_names : List String) :
    Except PyError DiagnosticsConfig :=
  if (0 < names.length ∨ 0 < derived_names.length) ∧ path = none then
    .error .valueError
  else if output_format ∉ (["zarr", "netcdf"] : List String) then
    .error .valueError
  else
    .ok { path := path, output_format := output_format,
          time_chunk_size := time_chunk_size, names := names,
          derived_names := derived_names }

/-- Raw-name resolution of `MonitorDiagnostics.store`: `getattr` on
`dycore_state`, on `AttributeError` fall back to `physics_state`, and let
the failure propagate when the name is absent on both. -/
def getDycoreOrPhysics (st : DriverState) (name : String) :
    Except PyError Quantity :=
  match getattrOpt st.dycore_state name with
  | some q => .ok q
  | none =>
    match getattrOpt st.physics_state name with
    | some q => .ok q
    | none => .error .attributeError

/-- The raw-name loop of `MonitorDiagnostics.store`, threading the
`monitor_state` dict. -/
def storeRaw (st : DriverState) :
    List String → List (String × StoredValue) →
    Except PyError (List (String × StoredValue))
  | [], d => .ok d
  | n :: rest, d =>
    match getDycoreOrPhysics st n with
    | .error e => .error e
    | .ok q => storeRaw st rest (dictSet d n (StoredValue.quant q))

/-- The loop body of `MonitorDiagnostics._get_derived_state`, threading the
`output` dict and the warning list. -/
def getDerivedStateAux (st : DriverState) :
    List String → List (String × Quantity) → List String →
    Except PyError (List (String × Quantity) × List String)
  | [], out, ws => .ok (out, ws)
  | name :: rest, out, ws =>
    if pyStartswith name "column_integrated_" then
      match getattrOpt st.dycore_state (stripColumnIntegrated name) with
      | none => .error .attributeError
      | some q =>
        match getattrOpt st.dycore_state "delp" with
        | none => .error .attributeError
        | some delp =>
          match computeColumnIntegral name q delp with
          | .error e => .error e
          | .ok r => getDerivedStateAux st rest (dictSet out name r) ws
    else
      getDerivedStateAux st rest out (ws ++ [unsupportedMsg name])

/-- Shallow embedding of `MonitorDiagnostics._get_derived_state`, returning
the derived-output dict together with the warnings emitted. -/
def getDerivedState (derived_names : List String) (st : DriverState) :
    Except PyError (List (String × Quantity) × List String) :=
  getDerivedStateAux st derived_names [] []

namespace MonitorDiagnostics

/-- Shallow embedding of `MonitorDiagnostics.store(time, state)` for an
instance configured with `names` and `derived_names`.  The first component
of a successful result is the list of mappings handed to the backend
monitor's `store` (so the number of backend write calls is observable);
the second is the list of warnings emitted. -/
def store (names derived_names : List String) (t : Time)
    (st : DriverState) :
    Except PyError (List (List (String × StoredValue)) × List String) :=
  match storeRaw st names [("time", StoredValue.time t)] with
  | .error e => .error e
  | .ok d1 =>
    match getDerivedState derived_names st with
    | .error e => .error e
    | .ok (derived, ws) =>
      .ok ([derived.foldl
              (fun d p => dictSet d p.1 (StoredValue.quant p.2)) d1], ws)

end MonitorDiagnostics

/-- Bundled success condition for one derived name, as `store` needs it:
the `column_integrated_` naming convention holds, the stripped tracer and
`delp` are present on the dycore state, and the column integral succeeds
on them. -/
def derivedOk (st : DriverState) (name : String) : Bool :=
  pyStartswith name "column_integrated_" &&
    (match getattrOpt st.dycore_state (stripColumnIntegrated name),
           getattrOpt st.dycore_state "delp" with
     | some q, some delp =>
       match computeColumnIntegral name q delp with
       | .ok _ => true
       | .error _ => false
     | _, _ => false)

/-- Concrete 3-D tracer: constant data 1, shape (2,2,3), vertical tag at
axis 2, full valid sub-domain. -/
def wQv : Quantity :=
  { data := fun _ => 1, shape := [2, 2, 3], dims := ["x", "y", "z"],
    origin := [0, 0, 0], extent := [2, 2, 3], units := "kg/kg" }

/-- Concrete pressure-thickness field: constant data 2, same layout as
`wQv`. -/
def wDelp : Quantity :=
  { data := fun _ => 2, shape := [2, 2, 3], dims := ["x", "y", "z"],
    origin := [0, 0, 0], extent := [2, 2, 3], units := "Pa" }

/-- Concrete driver state: `u`, `qv` and `delp` on the dycore sub-state,
`v` on the physics sub-state. -/
def wState : DriverState :=
  { dycore_state := ⟨[("u", wQv), ("qv", wQv), ("delp", wDelp)]⟩,
    physics_state := ⟨[("v", wQv)]⟩ }

/-- Concrete 2-D (rank-2) tracer, violating the column-integral rank
precondition. -/
def qvRank2 : Quantity :=
  { data := fun _ => 1, shape := [2, 2], dims := ["x", "y"],
    origin := [0, 0], extent := [2, 2], units := "kg/kg" }

/-- Concrete 3-D quantity whose axis-2 tag is not the vertical tag. -/
def qWrongZ : Quantity :=
  { data := fun _ => 1, shape := [2, 2, 3], dims := ["x", "y", "t"],
    origin := [0, 0, 0], extent := [2, 2, 3], units := "kg/kg" }

/-- Concrete 4-D tracer (one trailing dimension after the vertical axis),
satisfying the column-integral preconditions. -/
def q4d : Quantity :=
  { data := fun _ => 1, shape := [1, 1, 1, 1], dims := ["x", "y", "z", "t"],
    origin := [0, 0, 0, 0], extent := [1, 1, 1, 1], units := "kg/kg" }

/-- Concrete 4-D pressure-thickness field matching `q4d`. -/
def dp4d : Quantity :=
  { data := fun _ => 2, shape := [1, 1, 1, 1], dims := ["x", "y", "z", "t"],
    origin := [0, 0, 0, 0], extent := [1, 1, 1, 1], units := "Pa" }

/-- Concrete driver state whose dycore sub-state holds a rank-2 `qv` (and a
well-formed `delp`). -/
def cexState : DriverState :=
  { dycore_state := ⟨[("qv", qvRank2), ("delp", wDelp)]⟩,
    physics_state := ⟨[]⟩ }

/-- Concrete driver state with no attributes on either sub-state. -/
def emptyState : DriverState :=
  { dycore_state := ⟨[]⟩, physics_state := ⟨[]⟩ }

/-- The quantity produced by the column integral on `wQv`/`wDelp`,
extracted from the successful result. -/
def ciResult3d : Quantity :=
  (computeColumnIntegral "column_integrated_qv" wQv wDelp).toOption.getD
    default

theorem dictLookup_map_overwrite_ne {V : Type} {k k' : String} (v : V)
    (h : k' ≠ k) :
    ∀ d : List (String × V),
      dictLookup (d.map (fun p => if p.1 = k then (k, v) else p)) k' =
        dictLookup d k'
  | [] => rfl
  | q :: rest => by
    by_cases hq : q.1 = k
    · rw [List.map_cons, if_pos hq]
      simp only [dictLookup]
      rw [if_neg (fun hh => h hh.symm), if_neg (fun hh => h (hq ▸ hh).symm)]
      exact dictLookup_map_overwrite_ne v h rest
    · rw [List.map_cons, if_neg hq]
      simp only [dictLookup]
      by_cases hq' : q.1 = k'
      · rw [if_pos hq', if_pos hq']
      · rw [if_neg hq', if_neg hq']
        exact dictLookup_map_overwrite_ne v h rest

theorem dictLookup_map_overwrite_self {V : Type} {k : String} (v : V) :
    ∀ d : List (String × V), (dictLookup d k).isSome = true →
      dictLookup (d.map (fun p => if p.1 = k then (k, v) else p)) k = some v
  | [], h => by simp [dictLookup] at h
  | q :: rest, h => by
    by_cases hq : q.1 = k
    · rw [List.map_cons, if_pos hq]
      simp [dictLookup]
    · rw [List.map_cons, if_neg hq]
      simp only [dictLookup] at h ⊢
      rw [if_neg hq] at h ⊢
      exact dictLookup_map_overwrite_self v rest h

theorem dictLookup_append_ne {V : Type} {k k' : String} (v : V) (h : k' ≠ k) :
    ∀ d : List (String × V), dictLookup (d ++ [(k, v)]) k' = dictLookup d k'
  | [] => by
    simp only [List.nil_append, dictLookup]
    rw [if_neg (fun hh => h hh.symm)]
  | q :: rest => by
    rw [List.cons_append]
    simp only [dictLookup]
    by_cases hq : q.1 = k'
    · rw [if_pos hq, if_pos hq]
    · rw [if_neg hq, if_neg hq]
      exact dictLookup_append_ne v h rest

theorem dictLookup_append_self {V : Type} {k : String} (v : V) :
    ∀ d : List (String × V), (dictLookup d k).isSome = false →
      dictLookup (d ++ [(k, v)]) k = some v
  | [], _ => by
    simp [dictLookup]
  | q :: rest, h => by
    have hq : q.1 ≠ k := by
      intro hq
      simp only [dictLookup] at h
      rw [if_pos hq] at h
      simp at h
    simp only [dictLookup] at h
    rw [if_neg hq] at h
    rw [List.cons_append]
    simp only [dictLookup]
    rw [if_neg hq]
    exact dictLookup_append_self v rest h

theorem dictLookup_dictSet {V : Type} (k k' : String) (v : V)
    (d : List (String × V)) :
    dictLookup (dictSet d k v) k' =
      if k' = k then some v else dictLookup d k' := by
  rw [dictSet]
  by_cases hmem : (dictLookup d k).isSome = true
  · rw [if_pos hmem]
    by_cases hk : k' = k
    · subst hk
      rw [if_pos rfl]
      exact dictLookup_map_overwrite_self v d hmem
    · rw [if_neg hk]
      exact dictLookup_map_overwrite_ne v hk d
  · rw [if_neg hmem]
    by_cases hk : k' = k
    · subst hk
      rw [if_pos rfl]
      exact dictLookup_append_self v d (by simpa using hmem)
    · rw [if_neg hk]
      exact dictLookup_append_ne v hk d

theorem exceptIsOk_iff {eps alpha : Type} (e : Except eps alpha) :
    e.isOk = true ↔ ∃ a, e = .ok a := by
  cases e <;> simp [Except.isOk, Except.toBool]

theorem dictLookup_isSome_iff_mem {V : Type} (k : String) :
    ∀ d : List (String × V),
      (dictLookup d k).isSome = true ↔ k ∈ d.map Prod.fst
  | [] => by simp [dictLookup]
  | q :: rest => by
    by_cases hq : q.1 = k
    · simp [dictLookup, hq]
    · simp only [dictLookup, if_neg hq, List.map_cons, List.mem_cons]
      rw [dictLookup_isSome_iff_mem k rest]
      constructor
      · exact Or.inr
      · rintro (h | h)
        · exact absurd h.symm hq
        · exact h

theorem dictLookup_foldl_dictSet_notMem {V W : Type} (g : V → W) (k : String) :
    ∀ (L : List (String × V)) (d : List (String × W)),
      k ∉ L.map Prod.fst →
      dictLookup (L.foldl (fun dd p => dictSet dd p.1 (g p.2)) d) k =
        dictLookup d k
  | [], d, _ => rfl
  | p :: rest, d, h => by
    rw [List.map_cons, List.mem_cons] at h
    push_neg at h
    rw [List.foldl_cons,
      dictLookup_foldl_dictSet_notMem g k rest _ h.2,
      dictLookup_dictSet, if_neg h.1]

theorem dictLookup_foldl_dictSet_isSome {V W : Type} (g : V → W) (k : String) :
    ∀ (L : List (String × V)) (d : List (String × W)),
      (dictLookup (L.foldl (fun dd p => dictSet dd p.1 (g p.2)) d) k).isSome
          = true ↔
        (dictLookup d k).isSome = true ∨ k ∈ L.map Prod.fst
  | [], d => by simp
  | p :: rest, d => by
    rw [List.foldl_cons, dictLookup_foldl_dictSet_isSome g k rest,
      dictLookup_dictSet, List.map_cons, List.mem_cons]
    by_cases hk : k = p.1
    · simp [hk]
    · rw [if_neg hk]
      constructor
      · rintro (h | h)
        · exact Or.inl h
        · exact Or.inr (Or.inr h)
      · rintro (h | h | h)
        · exact Or.inl h
        · exact absurd h hk
        · exact Or.inr h

theorem storeRaw_ok (st : DriverState) :
    ∀ (names : List String) (d0 : List (String × StoredValue)),
      (∀ n ∈ names, (getDycoreOrPhysics st n).isOk = true) →
      ∃ d, storeRaw st names d0 = .ok d ∧
        ∀ k, dictLookup d k =
          if k ∈ names then
            (getDycoreOrPhysics st k).toOption.map StoredValue.quant
          else dictLookup d0 k
  | [], d0, _ => ⟨d0, rfl, fun k => by simp⟩
  | n :: rest, d0, h => by
    obtain ⟨q, hq⟩ := (exceptIsOk_iff _).1 (h n (List.mem_cons_self n rest))
    obtain ⟨d, hd, hlook⟩ :=
      storeRaw_ok st rest (dictSet d0 n (StoredValue.quant q))
        (fun m hm => h m (List.mem_cons_of_mem n hm))
    refine ⟨d, ?_, ?_⟩
    · rw [storeRaw, hq]
      exact hd
    · intro k
      rw [hlook k, dictLookup_dictSet]
      by_cases hkr : k ∈ rest
      · rw [if_pos hkr, if_pos (List.mem_cons_of_mem n hkr)]
      · by_cases hkn : k = n
        · subst hkn
          rw [if_neg hkr, if_pos rfl, if_pos (List.mem_cons_self k rest), hq]
          rfl
        · rw [if_neg hkr, if_neg hkn,
            if_neg (by simp [List.mem_cons, hkn, hkr])]

theorem getDerivedStateAux_ws (st : DriverState) :
    ∀ (l : List String) (out : List (String × Quantity)) (ws : List String),
      getDerivedStateAux st l out ws =
        (getDerivedStateAux st l out []).map (fun p => (p.1, ws ++ p.2))
  | [], out, ws => by simp [getDerivedStateAux, Except.map]
  | name :: rest, out, ws => by
    simp only [getDerivedStateAux]
    by_cases hp : pyStartswith name "column_integrated_" = true
    · rw [if_pos hp, if_pos hp]
      cases hm : getattrOpt st.dycore_state (stripColumnIntegrated name) with
      | none => simp [Except.map]
      | some q =>
        simp only []
        cases hdp : getattrOpt st.dycore_state "delp" with
        | none => simp [Except.map]
        | some dp =>
          simp only []
          cases hc : computeColumnIntegral name q dp with
          | error e => simp [Except.map]
          | ok r =>
            simp only []
            exact getDerivedStateAux_ws st rest (dictSet out name r) ws
    · rw [if_neg hp, if_neg hp]
      rw [getDerivedStateAux_ws st rest out (ws ++ [unsupportedMsg name]),
        getDerivedStateAux_ws st rest out ([] ++ [unsupportedMsg name])]
      cases getDerivedStateAux st rest out [] with
      | error e => simp [Except.map]
      | ok p => simp [Except.map]

theorem getDerivedStateAux_absent_err (st : DriverState) (n : String)
    (hpre : pyStartswith n "column_integrated_" = true)
    (habs : getattrOpt st.dycore_state (stripColumnIntegrated n) = none) :
    ∀ (l : List String) (out : List (String × Quantity)) (ws : List String),
      n ∈ l → ∃ e, getDerivedStateAux st l out ws = .error e
  | [], _, _, hmem => absurd hmem (List.not_mem_nil n)
  | m :: rest, out, ws, hmem => by
    simp only [getDerivedStateAux]
    by_cases hp : pyStartswith m "column_integrated_" = true
    · rw [if_pos hp]
      cases hm : getattrOpt st.dycore_state (stripColumnIntegrated m) with
      | none => exact ⟨.attributeError, rfl⟩
      | some q =>
        simp only []
        cases hdp : getattrOpt st.dycore_state "delp" with
        | none => exact ⟨.attributeError, rfl⟩
        | some dp =>
          simp only []
          cases hc : computeColumnIntegral m q dp with
          | error e => exact ⟨e, rfl⟩
          | ok r =>
            simp only []
            have hnr : n ∈ rest := by
              rcases List.mem_cons.1 hmem with h | h
              · subst h
                rw [habs] at hm
                exact absurd hm (by simp)
              · exact h
            exact getDerivedStateAux_absent_err st n hpre habs rest
              (dictSet out m r) ws hnr
    · rw [if_neg hp]
      have hnr : n ∈ rest := by
        rcases List.mem_cons.1 hmem with h | h
        · subst h
          exact absurd hpre hp
        · exact h
      exact getDerivedStateAux_absent_err st n hpre habs rest out
        (ws ++ [unsupportedMsg m]) hnr

theorem getDerivedStateAux_keys (st : DriverState) (k : String) :
    ∀ (l : List String) (out : List (String × Quantity)) (ws : List String)
      (o : List (String × Quantity)) (w : List String),
      getDerivedStateAux st l out ws = .ok (o, w) →
      (dictLookup o k).isSome = true →
      (dictLookup out k).isSome = true ∨
        pyStartswith k "column_integrated_" = true
  | [], out, ws, o, w, hok, hk => by
    simp only [getDerivedStateAux] at hok
    obtain ⟨ho, -⟩ := Prod.mk.injEq .. ▸ (Except.ok.injEq .. ▸ hok)
    exact Or.inl (ho ▸ hk)
  | m :: rest, out, ws, o, w, hok, hk => by
    simp only [getDerivedStateAux] at hok
    by_cases hp : pyStartswith m "column_integrated_" = true
    · rw [if_pos hp] at hok
      cases hm : getattrOpt st.dycore_state (stripColumnIntegrated m) with
      | none => rw [hm] at hok; exact absurd hok (by simp)
      | some q =>
        rw [hm] at hok
        simp only [] at hok
        cases hdp : getattrOpt st.dycore_state "delp" with
        | none => rw [hdp] at hok; exact absurd hok (by simp)
        | some dp =>
          rw [hdp] at hok
          simp only [] at hok
          cases hc : computeColumnIntegral m q dp with
          | error e => rw [hc] at hok; exact absurd hok (by simp)
          | ok r =>
            rw [hc] at hok
            simp only [] at hok
            rcases getDerivedStateAux_keys st k rest _ _ _ _ hok hk with
              h | h
            · rw [dictLookup_dictSet] at h
              by_cases hkm : k = m
              · exact Or.inr (hkm ▸ hp)
              · rw [if_neg hkm] at h
                exact Or.inl h
            · exact Or.inr h
    · rw [if_neg hp] at hok
      exact getDerivedStateAux_keys st k rest _ _ _ _ hok hk

theorem getDerivedStateAux_warnings (st : DriverState) :
    ∀ (l : List String) (out : List (String × Quantity)) (ws : List String)
      (o : List (String × Quantity)) (w : List String),
      getDerivedStateAux st l out ws = .ok (o, w) →
      ∀ m ∈ w, m ∈ ws ∨ ∃ n, n ∈ l ∧
        pyStartswith n "column_integrated_" = false ∧ m = unsupportedMsg n
  | [], out, ws, o, w, hok, m, hm => by
    simp only [getDerivedStateAux, Except.ok.injEq, Prod.mk.injEq] at hok
    exact Or.inl (hok.2 ▸ hm)
  | nm :: rest, out, ws, o, w, hok, m, hm => by
    simp only [getDerivedStateAux] at hok
    by_cases hp : pyStartswith nm "column_integrated_" = true
    · rw [if_pos hp] at hok
      cases hq : getattrOpt st.dycore_state (stripColumnIntegrated nm) with
      | none => rw [hq] at hok; exact absurd hok (by simp)
      | some q =>
        rw [hq] at hok
        simp only [] at hok
        cases hdp : getattrOpt st.dycore_state "delp" with
        | none => rw [hdp] at hok; exact absurd hok (by simp)
        | some dp =>
          rw [hdp] at hok
          simp only [] at hok
          cases hc : computeColumnIntegral nm q dp with
          | error e => rw [hc] at hok; exact absurd hok (by simp)
          | ok r =>
            rw [hc] at hok
            simp only [] at hok
            rcases getDerivedStateAux_warnings st rest _ _ _ _ hok m hm with
              h | ⟨n, hn, hnp, hmsg⟩
            · exact Or.inl h
            · exact Or.inr ⟨n, List.mem_cons_of_mem nm hn, hnp, hmsg⟩
    · rw [if_neg hp] at hok
      rcases getDerivedStateAux_warnings st rest _ _ _ _ hok m hm with
        h | ⟨n, hn, hnp, hmsg⟩
      · rcases List.mem_append.1 h with h | h
        · exact Or.inl h
        · refine Or.inr ⟨nm, List.mem_cons_self nm rest, ?_, ?_⟩
          · exact Bool.not_eq_true _ ▸ hp
          · simpa using h
      · exact Or.inr ⟨n, List.mem_cons_of_mem nm hn, hnp, hmsg⟩

theorem getDerivedStateAux_ok (st : DriverState) :
    ∀ (l : List String) (out : List (String × Quantity)) (ws : List String),
      (∀ n ∈ l, derivedOk st n = true) →
      ∃ o, getDerivedStateAux st l out ws = .ok (o, ws) ∧
        ∀ k, ((dictLookup o k).isSome = true ↔
          (dictLookup out k).isSome = true ∨ k ∈ l)
  | [], out, ws, _ => ⟨out, rfl, fun k => by simp⟩
  | nm :: rest, out, ws, h => by
    have hnm := h nm (List.mem_cons_self nm rest)
    rw [derivedOk, Bool.and_eq_true] at hnm
    obtain ⟨hp, hrest⟩ := hnm
    cases hq : getattrOpt st.dycore_state (stripColumnIntegrated nm) with
    | none => rw [hq] at hrest; exact absurd hrest (by simp)
    | some q =>
      rw [hq] at hrest
      cases hdp : getattrOpt st.dycore_state "delp" with
      | none => rw [hdp] at hrest; exact absurd hrest (by simp)
      | some dp =>
        rw [hdp] at hrest
        simp only [] at hrest
        cases hc : computeColumnIntegral nm q dp with
        | error e => rw [hc] at hrest; exact absurd hrest (by simp)
        | ok r =>
          obtain ⟨o, ho, hkeys⟩ :=
            getDerivedStateAux_ok st rest (dictSet out nm r) ws
              (fun n hn => h n (List.mem_cons_of_mem nm hn))
          refine ⟨o, ?_, ?_⟩
          · simp only [getDerivedStateAux]
            rw [if_pos hp, hq]
            simp only []
            rw [hdp]
            simp only []
            rw [hc]
            exact ho
          · intro k
            rw [hkeys k, dictLookup_dictSet]
            by_cases hkm : k = nm
            · simp [hkm]
            · rw [if_neg hkm]
              simp [List.mem_cons, hkm]

theorem getDerivedStateAux_all_unsupported (st : DriverState) :
    ∀ (l : List String) (out : List (String × Quantity)) (ws : List String),
      (∀ n ∈ l, pyStartswith n "column_integrated_" = false) →
      getDerivedStateAux st l out ws = .ok (out, ws ++ l.map unsupportedMsg)
  | [], out, ws, _ => by simp [getDerivedStateAux]
  | nm :: rest, out, ws, h => by
    simp only [getDerivedStateAux]
    rw [if_neg (by rw [h nm (List.mem_cons_self nm rest)]; simp)]
    rw [getDerivedStateAux_all_unsupported st rest out (ws ++ [unsupportedMsg nm])
      (fun n hn => h n (List.mem_cons_of_mem nm hn))]
    simp

theorem getDycoreOrPhysics_dycore (st : DriverState) (n : String)
    (q : Quantity) (h : getattrOpt st.dycore_state n = some q) :
    getDycoreOrPhysics st n = .ok q := by
  rw [getDycoreOrPhysics, h]

theorem getDycoreOrPhysics_physics (st : DriverState) (n : String)
    (q : Quantity) (h1 : getattrOpt st.dycore_state n = none)
    (h2 : getattrOpt st.physics_state n = some q) :
    getDycoreOrPhysics st n = .ok q := by
  rw [getDycoreOrPhysics, h1]
  simp only []
  rw [h2]

theorem getDycoreOrPhysics_none (st : DriverState) (n : String)
    (h1 : getattrOpt st.dycore_state n = none)
    (h2 : getattrOpt st.physics_state n = none) :
    getDycoreOrPhysics st n = .error .attributeError := by
  rw [getDycoreOrPhysics, h1]
  simp only []
  rw [h2]

theorem getDycoreOrPhysics_error (st : DriverState) (m : String) (e : PyError)
    (h : getDycoreOrPhysics st m = .error e) : e = .attributeError := by
  rw [getDycoreOrPhysics] at h
  cases h1 : getattrOpt st.dycore_state m with
  | some q => rw [h1] at h; exact absurd h (by simp)
  | none =>
    rw [h1] at h
    simp only [] at h
    cases h2 : getattrOpt st.physics_state m with
    | some q => rw [h2] at h; exact absurd h (by simp)
    | none =>
      rw [h2] at h
      simp only [Except.error.injEq] at h
      exact h.symm

theorem storeRaw_absent_err (st : DriverState) (n : String)
    (h1 : getattrOpt st.dycore_state n = none)
    (h2 : getattrOpt st.physics_state n = none) :
    ∀ (names : List String) (d : List (String × StoredValue)), n ∈ names →
      storeRaw st names d = .error .attributeError
  | [], _, hmem => absurd hmem (List.not_mem_nil n)
  | m :: rest, d, hmem => by
    cases hg : getDycoreOrPhysics st m with
    | error e =>
      rw [storeRaw, hg]
      rw [getDycoreOrPhysics_error st m e hg]
    | ok q =>
      have hnr : n ∈ rest := by
        rcases List.mem_cons.1 hmem with h | h
        · subst h
          rw [getDycoreOrPhysics_none st n h1 h2] at hg
          exact absurd hg (by simp)
        · exact h
      rw [storeRaw, hg]
      simp only []
      exact storeRaw_absent_err st n h1 h2 rest _ hnr

/-- Claim C4 counterexample: a config whose `names` and `derived_names` are
both empty still fails construction when `output_format` is `"hdf5"`, so
construction does not succeed regardless of the other fields. -/
theorem mkDiagnosticsConfig_emptyNames_badFormat_fails :
    mkDiagnosticsConfig none "hdf5" 1 [] [] = .error .valueError := by decide

/-- Claim C4 (amended): for every `DiagnosticsConfig` whose `names` and
`derived_names` lists are both empty, construction succeeds regardless of
the value of `path` and of `time_chunk_size`, provided `output_format` is
one of `"zarr"` or `"netcdf"`. -/
theorem mkDiagnosticsConfig_emptyNames_ok (path : Option String)
    (fmt : String) (tcs : Int) (hfmt : fmt = "zarr" ∨ fmt = "netcdf") :
    mkDiagnosticsConfig path fmt tcs [] [] =
      .ok { path := path, output_format := fmt, time_chunk_size := tcs,
            names := [], derived_names := [] } := by
  rw [mkDiagnosticsConfig, if_neg (by simp),
    if_neg (by rcases hfmt with h | h <;> simp [h])]

/-- Witness for the amended claim C4 at a concrete input. -/
theorem mkDiagnosticsConfig_emptyNames_ok_witness :
    mkDiagnosticsConfig none "zarr" 1 [] [] =
      .ok { path := none, output_format := "zarr", time_chunk_size := 1,
            names := [], derived_names := [] } :=
  mkDiagnosticsConfig_emptyNames_ok none "zarr" 1 (Or.inl rfl)

/-- Claim C5: construction raises `ValueError` whenever `names` or
`derived_names` is non-empty while `path` is `None`, and whenever
`output_format` is not one of `"zarr"` or `"netcdf"`, regardless of the
other fields; both checks run in `__post_init__`, at construction time. -/
theorem mkDiagnosticsConfig_validation_errors :
    (∀ (p : Option String) (fmt : String) (tcs : Int) (ns ds : List String),
      (ns ≠ [] ∨ ds ≠ []) → p = none →
      mkDiagnosticsConfig p fmt tcs ns ds = .error .valueError) ∧
    (∀ (p : Option String) (fmt : String) (tcs : Int) (ns ds : List String),
      fmt ∉ (["zarr", "netcdf"] : List String) →
      mkDiagnosticsConfig p fmt tcs ns ds = .error .valueError) := by
  constructor
  · intro p fmt tcs ns ds hne hp
    rw [mkDiagnosticsConfig, if_pos]
    refine ⟨?_, hp⟩
    rcases hne with h | h
    · exact Or.inl (List.length_pos.2 h)
    · exact Or.inr (List.length_pos.2 h)
  · intro p fmt tcs ns ds hfmt
    rw [mkDiagnosticsConfig]
    by_cases h1 : (0 < ns.length ∨ 0 < ds.length) ∧ p = none
    · rw [if_pos h1]
    · rw [if_neg h1, if_pos hfmt]

/-- Witness for claim C5 at concrete inputs: a missing path with a
non-empty name list, and an unrecognized output format. -/
theorem mkDiagnosticsConfig_validation_errors_witness :
    mkDiagnosticsConfig none "zarr" 1 ["u"] [] = .error .valueError ∧
    mkDiagnosticsConfig (some "out") "hdf5" 1 ["u"] [] = .error .valueError :=
  ⟨mkDiagnosticsConfig_validation_errors.1 none "zarr" 1 ["u"] []
      (Or.inl (by decide)) rfl,
   mkDiagnosticsConfig_validation_errors.2 (some "out") "hdf5" 1 ["u"] []
      (by decide)⟩

/-- Claim C8: the column integral fails loudly: an assertion failure for
every tracer with 2 or fewer dimensions, and a `NotImplementedError` for
every tracer whose dimension tag at axis index 2 is not the vertical tag;
it never silently misinterprets the axes. -/
theorem computeColumnIntegral_fails_loudly :
    (∀ (name : String) (q dp : Quantity), q.dims.length ≤ 2 →
      computeColumnIntegral name q dp = .error .assertionError) ∧
    (∀ (name : String) (q dp : Quantity), 2 < q.dims.length →
      q.dims.getD 2 "" ≠ Z_DIM →
      computeColumnIntegral name q dp = .error .notImplementedError) := by
  constructor
  · intro name q dp h
    rw [computeColumnIntegral, if_pos h]
  · intro name q dp h hz
    rw [computeColumnIntegral, if_neg (by omega), if_pos hz]

/-- Witness for claim C8 at concrete inputs: a rank-2 tracer and a tracer
with a non-vertical tag at axis 2. -/
theorem computeColumnIntegral_fails_loudly_witness :
    computeColumnIntegral "x" qvRank2 wDelp = .error .assertionError ∧
    computeColumnIntegral "x" qWrongZ wDelp = .error .notImplementedError :=
  ⟨computeColumnIntegral_fails_loudly.1 "x" qvRank2 wDelp (by decide),
   computeColumnIntegral_fails_loudly.2 "x" qWrongZ wDelp (by decide)
      (by decide)⟩

theorem computeColumnIntegral_ok (name : String) (q dp : Quantity)
    (hdim : 2 < q.dims.length) (hz : q.dims.getD 2 "" = Z_DIM)
    (hol : 3 ≤ q.origin.length) (hel : 3 ≤ q.extent.length)
    (hsl : 3 ≤ q.shape.length) (hds : dp.shape = q.shape)
    (hrange : q.origin.getD 2 0 + q.extent.getD 2 0 ≤ q.shape.getD 2 0) :
    computeColumnIntegral name q dp = .ok
      { data := fun idx =>
          Finset.sum (Finset.range (q.extent.getD 2 0)) (fun t =>
            q.data (idx.take 2 ++ [q.origin.getD 2 0 + t] ++ idx.drop 2) *
              dp.data (idx.take 2 ++ [q.origin.getD 2 0 + t] ++ idx.drop 2)),
        shape := q.shape.take 2 ++ q.shape.drop 3,
        dims := q.dims.take 2 ++ q.dims.drop 3,
        origin := q.origin.take 2,
        extent := [q.extent.getD 0 0, q.extent.getD 1 0],
        units := "kg/m**2" } := by
  have hmin1 : min (q.origin.getD 2 0) (q.shape.getD 2 0) =
      q.origin.getD 2 0 := min_eq_left (by omega)
  have hmin2 : min (q.origin.getD 2 0 + q.extent.getD 2 0)
      (q.shape.getD 2 0) = q.origin.getD 2 0 + q.extent.getD 2 0 :=
    min_eq_left hrange
  rw [computeColumnIntegral, if_neg (by omega), if_neg (fun hne => hne hz),
    if_neg (by omega), if_neg (by rw [hds]; omega)]
  simp only [hds, hmin1, hmin2, Nat.add_sub_cancel_left]
  rw [if_neg (by simp)]

/-- Claim C2: for a tracer of shape (X,Y,Z) with constant data `c` and a
`delp` of the same shape with constant data `d`, with the vertical valid
sub-domain covering all Z levels and the vertical tag at axis index 2, the
column integral is `c*d*Z` at every horizontal point, with units
`"kg/m**2"`. -/
theorem computeColumnIntegral_const (X Y Z : Nat) (c d : Int)
    (name : String) (q dp : Quantity)
    (hqd : q.data = fun _ => c) (hdd : dp.data = fun _ => d)
    (hdim : q.dims.length = 3) (hz : q.dims.getD 2 "" = Z_DIM)
    (hqs : q.shape = [X, Y, Z]) (hds : dp.shape = [X, Y, Z])
    (hol : q.origin.length = 3) (hel : q.extent.length = 3)
    (ho2 : q.origin.getD 2 0 = 0) (he2 : q.extent.getD 2 0 = Z) :
    ∃ r, computeColumnIntegral name q dp = .ok r ∧
      r.units = "kg/m**2" ∧
      ∀ i j : Nat, r.data [i, j] = c * d * (Z : Int) := by
  have hok := computeColumnIntegral_ok name q dp (by omega) hz (by omega)
    (by omega) (by simp [hqs]) (by rw [hds, hqs])
    (by rw [ho2, he2, hqs]; simp)
  refine ⟨_, hok, rfl, ?_⟩
  intro i j
  simp only [hqd, hdd, he2]
  rw [Finset.sum_const, Finset.card_range, nsmul_eq_mul]
  ring

/-- Witness for claim C2 at a concrete input: constant tracer 1 and
constant delp 2 on shape (2,2,3) give the integral 6 everywhere. -/
theorem computeColumnIntegral_const_witness :
    ∃ r, computeColumnIntegral "column_integrated_qv" wQv wDelp = .ok r ∧
      r.units = "kg/m**2" ∧
      ∀ i j : Nat, r.data [i, j] = 1 * 2 * (3 : Int) :=
  computeColumnIntegral_const 2 2 3 1 2 "column_integrated_qv" wQv wDelp
    rfl rfl rfl rfl rfl rfl rfl rfl rfl rfl

/-- Claim C9: on every successful call the vertical slice of both arrays is
the range from the tracer's `origin[2]` to `origin[2] + extent[2]`, the
summand is the elementwise product at every padded horizontal index pair,
and the result never consults `delp`'s own origin or extent. -/
theorem computeColumnIntegral_slice (name : String) (q dp : Quantity)
    (hdim : 2 < q.dims.length) (hz : q.dims.getD 2 "" = Z_DIM)
    (hol : 3 ≤ q.origin.length) (hel : 3 ≤ q.extent.length)
    (hsl : 3 ≤ q.shape.length) (hds : dp.shape = q.shape)
    (hrange : q.origin.getD 2 0 + q.extent.getD 2 0 ≤ q.shape.getD 2 0) :
    ∃ r, computeColumnIntegral name q dp = .ok r ∧
      (∀ i j : Nat, r.data [i, j] =
        Finset.sum (Finset.Ico (q.origin.getD 2 0)
          (q.origin.getD 2 0 + q.extent.getD 2 0)) (fun k =>
            q.data [i, j, k] * dp.data [i, j, k])) ∧
      (∀ (o e : List Nat),
        computeColumnIntegral name q
          { dp with origin := o, extent := e } =
          computeColumnIntegral name q dp) := by
  refine ⟨_, computeColumnIntegral_ok name q dp hdim hz hol hel hsl hds
    hrange, ?_, ?_⟩
  · intro i j
    rw [Finset.sum_Ico_eq_sum_range, Nat.add_sub_cancel_left]
    simp
  · intro o e
    obtain ⟨dd, ds, ddims, dor, dex, du⟩ := dp
    rfl

/-- Witness for claim C9 at a concrete input. -/
theorem computeColumnIntegral_slice_witness :
    ∃ r, computeColumnIntegral "column_integrated_qv" wQv wDelp = .ok r ∧
      (∀ i j : Nat, r.data [i, j] =
        Finset.sum (Finset.Ico (wQv.origin.getD 2 0)
          (wQv.origin.getD 2 0 + wQv.extent.getD 2 0)) (fun k =>
            wQv.data [i, j, k] * wDelp.data [i, j, k])) ∧
      (∀ (o e : List Nat),
        computeColumnIntegral "column_integrated_qv" wQv
          { wDelp with origin := o, extent := e } =
          computeColumnIntegral "column_integrated_qv" wQv wDelp) :=
  computeColumnIntegral_slice "column_integrated_qv" wQv wDelp
    (by decide) rfl (by decide) (by decide) (by decide) rfl (by decide)

/-- Claim C3 counterexample: a 4-D tracer (trailing dimension after the
vertical axis) satisfies the preconditions, yet the returned Quantity has
dims of length 3 but origin and extent of length 2, violating the
invariant. -/
theorem computeColumnIntegral_4d_invariant_fails :
    2 < q4d.dims.length ∧ q4d.dims.getD 2 "" = Z_DIM ∧
    (computeColumnIntegral "x" q4d dp4d).map quantityInvariantB =
      .ok false := by decide

/-- Claim C3 (amended): for every tracer with exactly 3 dimensions (dims,
origin and extent each of length 3) on which the column integral succeeds,
the returned Quantity satisfies the invariant, with dims equal to the input
dims with axis 2 removed and origin/extent copied from axes 0 and 1; with
trailing dimensions the result keeps the trailing dim tags while origin
and extent are cut to length 2, so the invariant fails. -/
theorem computeColumnIntegral_3d_invariant (name : String) (q dp : Quantity)
    (r : Quantity) (hd : q.dims.length = 3) (ho : q.origin.length = 3)
    (he : q.extent.length = 3)
    (hr : computeColumnIntegral name q dp = .ok r) :
    quantityInvariant r ∧ r.dims = q.dims.take 2 ∧
      r.origin = q.origin.take 2 ∧
      r.extent = [q.extent.getD 0 0, q.extent.getD 1 0] := by
  rw [computeColumnIntegral] at hr
  split at hr
  · exact absurd hr (by simp)
  split at hr
  · exact absurd hr (by simp)
  split at hr
  · exact absurd hr (by simp)
  split at hr
  · exact absurd hr (by simp)
  dsimp only [] at hr
  split at hr
  · exact absurd hr (by simp)
  rw [Except.ok.injEq] at hr
  subst hr
  refine ⟨⟨?_, ?_⟩, ?_, ?_, ?_⟩
  · simp [List.drop_eq_nil_of_le (by omega : q.dims.length ≤ 3),
      List.length_take, hd, ho]
  · simp [List.length_take, ho]
  · simp [List.drop_eq_nil_of_le (by omega : q.dims.length ≤ 3)]
  · rfl
  · rfl

/-- Witness for the amended claim C3 at a concrete 3-D input. -/
theorem computeColumnIntegral_3d_invariant_witness :
    quantityInvariant ciResult3d ∧ ciResult3d.dims = wQv.dims.take 2 ∧
      ciResult3d.origin = wQv.origin.take 2 ∧
      ciResult3d.extent = [wQv.extent.getD 0 0, wQv.extent.getD 1 0] :=
  computeColumnIntegral_3d_invariant "column_integrated_qv" wQv wDelp
    ciResult3d rfl rfl rfl rfl

theorem exceptToOption_isSome {eps alpha : Type} (e : Except eps alpha) :
    e.toOption.isSome = e.isOk := by
  cases e <;> rfl

theorem storeRaw_resolves (st : DriverState) :
    ∀ (names : List String) (d0 d : List (String × StoredValue)),
      storeRaw st names d0 = .ok d →
      ∀ n ∈ names, (getDycoreOrPhysics st n).isOk = true
  | [], _, _, _ => fun n hn => absurd hn (List.not_mem_nil n)
  | m :: rest, d0, d, h => by
    cases hg : getDycoreOrPhysics st m with
    | error e => rw [storeRaw, hg] at h; exact absurd h (by simp)
    | ok q =>
      rw [storeRaw, hg] at h
      simp only [] at h
      intro n hn
      rcases List.mem_cons.1 hn with rfl | hn'
      · rw [hg]; rfl
      · exact storeRaw_resolves st rest _ d h n hn'

/-- Claim C6: during `store`, each configured raw name resolves to the
attribute on `dycore_state` when the lookup succeeds, otherwise to the
attribute on `physics_state`; the value recorded in the mapping is exactly
that resolved quantity; and a name absent on both sub-states makes the
whole `store` call fail with the lookup error rather than being skipped. -/
theorem store_raw_name_resolution :
    (∀ (st : DriverState) (n : String) (q : Quantity),
      getattrOpt st.dycore_state n = some q →
      getDycoreOrPhysics st n = .ok q) ∧
    (∀ (st : DriverState) (n : String) (q : Quantity),
      getattrOpt st.dycore_state n = none →
      getattrOpt st.physics_state n = some q →
      getDycoreOrPhysics st n = .ok q) ∧
    (∀ (st : DriverState) (names : List String)
       (d0 d : List (String × StoredValue)),
      storeRaw st names d0 = .ok d →
      ∀ n ∈ names, dictLookup d n =
        (getDycoreOrPhysics st n).toOption.map StoredValue.quant) ∧
    (∀ (names dnames : List String) (t : Time) (st : DriverState)
       (n : String), n ∈ names →
      getattrOpt st.dycore_state n = none →
      getattrOpt st.physics_state n = none →
      MonitorDiagnostics.store names dnames t st =
        .error .attributeError) := by
  refine ⟨getDycoreOrPhysics_dycore, getDycoreOrPhysics_physics, ?_, ?_⟩
  · intro st names d0 d h n hn
    obtain ⟨d', hd', hlook⟩ :=
      storeRaw_ok st names d0 (storeRaw_resolves st names d0 d h)
    rw [h] at hd'
    rw [Except.ok.injEq] at hd'
    subst hd'
    rw [hlook n, if_pos hn]
  · intro names dnames t st n hmem h1 h2
    rw [MonitorDiagnostics.store,
      storeRaw_absent_err st n h1 h2 names _ hmem]

/-- Witness for claim C6 at a concrete input: a raw name absent on both
sub-states aborts the store call with the lookup failure. -/
theorem store_raw_name_resolution_witness :
    MonitorDiagnostics.store ["missing"] [] (Time.timedelta 0) emptyState =
      .error .attributeError :=
  store_raw_name_resolution.2.2.2 ["missing"] [] (Time.timedelta 0)
    emptyState "missing" (by decide) rfl rfl

/-- Claim C7: a derived name without the `column_integrated_` prefix only
appends a warning naming it: resolution of the remaining names continues
unchanged, no entry is produced for the name, and when every derived name
lacks the prefix the resolution succeeds with warnings only and an empty
output. -/
theorem getDerivedState_unsupported :
    (∀ (st : DriverState) (name : String) (rest : List String),
      pyStartswith name "column_integrated_" = false →
      getDerivedState (name :: rest) st =
        (getDerivedState rest st).map
          (fun p => (p.1, unsupportedMsg name :: p.2))) ∧
    (∀ (st : DriverState) (name : String) (rest : List String)
       (o : List (String × Quantity)) (w : List String),
      pyStartswith name "column_integrated_" = false →
      getDerivedState (name :: rest) st = .ok (o, w) →
      dictLookup o name = none ∧ unsupportedMsg name ∈ w) ∧
    (∀ (st : DriverState) (l : List String),
      (∀ n ∈ l, pyStartswith n "column_integrated_" = false) →
      getDerivedState l st = .ok ([], l.map unsupportedMsg)) := by
  have hstep : ∀ (st : DriverState) (name : String) (rest : List String),
      pyStartswith name "column_integrated_" = false →
      getDerivedState (name :: rest) st =
        (getDerivedState rest st).map
          (fun p => (p.1, unsupportedMsg name :: p.2)) := by
    intro st name rest hp
    rw [getDerivedState, getDerivedState]
    simp only [getDerivedStateAux]
    rw [if_neg (by rw [hp]; simp)]
    exact getDerivedStateAux_ws st rest [] ([] ++ [unsupportedMsg name])
  refine ⟨hstep, ?_, ?_⟩
  · intro st name rest o w hp hok
    constructor
    · have hkeys := getDerivedStateAux_keys st name (name :: rest) [] [] o w
        hok
      rw [Option.eq_none_iff_forall_not_mem]
      intro v hv
      have hsome : (dictLookup o name).isSome = true := by
        rw [hv]; rfl
      rcases hkeys hsome with h | h
      · simp [dictLookup] at h
      · rw [hp] at h
        exact absurd h (by simp)
    · rw [hstep st name rest hp] at hok
      cases hrest : getDerivedState rest st with
      | error e => rw [hrest] at hok; exact absurd hok (by simp [Except.map])
      | ok p =>
        rw [hrest] at hok
        simp only [Except.map, Except.ok.injEq, Prod.mk.injEq] at hok
        rw [← hok.2]
        exact List.mem_cons_self _ _
  · intro st l h
    rw [getDerivedState]
    exact getDerivedStateAux_all_unsupported st l [] [] h

/-- Witness for claim C7 at a concrete input: an unsupported derived name
yields its warning, no output entry, and no failure. -/
theorem getDerivedState_unsupported_witness :
    getDerivedState ["not_a_real_diagnostic"] wState =
      .ok ([],
        ["not_a_real_diagnostic is not a supported diagnostic variable."]) :=
  getDerivedState_unsupported.2.2 wState ["not_a_real_diagnostic"]
    (by decide)

/-- Claim C10: a derived name with the `column_integrated_` prefix whose
tracer is absent on the dycore state makes the resolution raise the lookup
failure immediately (so no warning is emitted for it), and the whole store
call fails; the warning-and-skip path only ever fires for names without
the prefix. -/
theorem store_derived_absent_raises :
    (∀ (st : DriverState) (name : String) (rest : List String),
      pyStartswith name "column_integrated_" = true →
      getattrOpt st.dycore_state (stripColumnIntegrated name) = none →
      getDerivedState (name :: rest) st = .error .attributeError) ∧
    (∀ (names dnames : List String) (t : Time) (st : DriverState)
       (name : String), name ∈ dnames →
      pyStartswith name "column_integrated_" = true →
      getattrOpt st.dycore_state (stripColumnIntegrated name) = none →
      ∃ e, MonitorDiagnostics.store names dnames t st = .error e) ∧
    (∀ (st : DriverState) (l : List String) (o : List (String × Quantity))
       (w : List String), getDerivedState l st = .ok (o, w) →
      ∀ m ∈ w, ∃ n, n ∈ l ∧ pyStartswith n "column_integrated_" = false ∧
        m = unsupportedMsg n) := by
  refine ⟨?_, ?_, ?_⟩
  · intro st name rest hp habs
    rw [getDerivedState]
    simp only [getDerivedStateAux]
    rw [if_pos hp, habs]
  · intro names dnames t st name hmem hp habs
    cases hsr : storeRaw st names [("time", StoredValue.time t)] with
    | error e =>
      exact ⟨e, by rw [MonitorDiagnostics.store, hsr]⟩
    | ok d1 =>
      obtain ⟨e, he⟩ := getDerivedStateAux_absent_err st name hp habs
        dnames [] [] hmem
      refine ⟨e, ?_⟩
      rw [MonitorDiagnostics.store, hsr]
      simp only []
      rw [getDerivedState, he]
  · intro st l o w hok m hm
    rcases getDerivedStateAux_warnings st l [] [] o w hok m hm with h | h
    · exact absurd h (List.not_mem_nil m)
    · exact h

/-- Witness for claim C10 at a concrete input: the tracer `qv` is absent on
the empty dycore state, so resolution raises the lookup failure. -/
theorem store_derived_absent_raises_witness :
    getDerivedState ["column_integrated_qv"] emptyState =
      .error .attributeError :=
  store_derived_absent_raises.1 emptyState "column_integrated_qv" []
    (by decide) rfl

/-- Claim C1 counterexample: with no raw names and the single derived name
`"column_integrated_qv"`, whose tracer `qv` is present on the dycore state
but rank-2, store raises the rank assertion of the column integral instead
of making exactly one backend call. -/
theorem store_rank2_tracer_no_call :
    (getattrOpt cexState.dycore_state "qv").isSome = true ∧
    pyStartswith "column_integrated_qv" "column_integrated_" = true ∧
    (MonitorDiagnostics.store [] ["column_integrated_qv"]
        (Time.timedelta 0) cexState).map (fun p => p.1.length) =
      .error .assertionError := by decide

/-- Claim C1 (amended): provided each raw name resolves on one of the two
sub-states, no raw name is the literal string `"time"`, and each derived
name has the `column_integrated_` prefix with its tracer and `delp`
present on the dycore state and a successful column integral, `store`
makes exactly one backend call, whose mapping has key set
`{"time"} ∪ names ∪ derived_names`, maps `"time"` to the given time value
with its type preserved, and maps each raw name not shadowed by a derived
name to its looked-up quantity. -/
theorem store_single_record (names dnames : List String) (t : Time)
    (st : DriverState)
    (hN : ∀ n ∈ names, (getDycoreOrPhysics st n).isOk = true)
    (hT : "time" ∉ names)
    (hD : ∀ n ∈ dnames, derivedOk st n = true) :
    ∃ rec ws, MonitorDiagnostics.store names dnames t st =
        .ok ([rec], ws) ∧
      (∀ k, (dictLookup rec k).isSome = true ↔
        (k = "time" ∨ k ∈ names ∨ k ∈ dnames)) ∧
      dictLookup rec "time" = some (StoredValue.time t) ∧
      (∀ (n : String) (q : Quantity), n ∈ names → n ∉ dnames →
        getDycoreOrPhysics st n = .ok q →
        dictLookup rec n = some (StoredValue.quant q)) := by
  obtain ⟨d1, hd1, hlook⟩ :=
    storeRaw_ok st names [("time", StoredValue.time t)] hN
  obtain ⟨o, ho, hkeys⟩ := getDerivedStateAux_ok st dnames [] [] hD
  have hds : getDerivedState dnames st = .ok (o, []) := by
    rw [getDerivedState]; exact ho
  have hokeys : ∀ k, k ∈ o.map Prod.fst ↔ k ∈ dnames := by
    intro k
    rw [← dictLookup_isSome_iff_mem, hkeys k]
    simp [dictLookup]
  have hnotdn : ∀ k, k ∈ dnames → k ≠ "time" := by
    intro k hk he
    have hp := hD k hk
    rw [derivedOk, Bool.and_eq_true] at hp
    rw [he] at hp
    exact absurd hp.1 (by decide)
  refine ⟨o.foldl (fun dd p => dictSet dd p.1 (StoredValue.quant p.2)) d1,
    [], ?_, ?_, ?_, ?_⟩
  · rw [MonitorDiagnostics.store, hd1]
    simp only []
    rw [hds]
  · intro k
    rw [dictLookup_foldl_dictSet_isSome, hlook k]
    constructor
    · rintro (h | h)
      · by_cases hkn : k ∈ names
        · exact Or.inr (Or.inl hkn)
        · rw [if_neg hkn] at h
          left
          simp only [dictLookup] at h
          by_cases hkt : "time" = k
          · exact hkt.symm
          · rw [if_neg hkt] at h
            exact absurd h (by simp [dictLookup])
      · exact Or.inr (Or.inr ((hokeys k).1 h))
    · rintro (h | h | h)
      · subst h
        left
        rw [if_neg hT]
        rfl
      · left
        rw [if_pos h]
        obtain ⟨q, hq⟩ := (exceptIsOk_iff _).1 (hN k h)
        rw [hq]
        rfl
      · exact Or.inr ((hokeys k).2 h)
  · have htm : "time" ∉ o.map Prod.fst := by
      intro hmem
      exact hnotdn "time" ((hokeys "time").1 hmem) rfl
    rw [dictLookup_foldl_dictSet_notMem _ _ o d1 htm, hlook "time",
      if_neg hT]
    rfl
  · intro n q hn hnd hq
    have hnm : n ∉ o.map Prod.fst := fun hmem => hnd ((hokeys n).1 hmem)
    rw [dictLookup_foldl_dictSet_notMem _ _ o d1 hnm, hlook n, if_pos hn,
      hq]
    rfl

/-- Witness for the amended claim C1 at the end-to-end configuration: raw
names `u`, `v` (one on each sub-state) and derived name
`column_integrated_qv`, with `qv` and `delp` on the dycore state. -/
theorem store_single_record_witness :
    ∃ rec ws, MonitorDiagnostics.store ["u", "v"] ["column_integrated_qv"]
        (Time.timedelta 7) wState = .ok ([rec], ws) ∧
      (∀ k, (dictLookup rec k).isSome = true ↔
        (k = "time" ∨ k ∈ ["u", "v"] ∨ k ∈ ["column_integrated_qv"])) ∧
      dictLookup rec "time" = some (StoredValue.time (Time.timedelta 7)) ∧
      (∀ (n : String) (q : Quantity), n ∈ ["u", "v"] →
        n ∉ ["column_integrated_qv"] →
        getDycoreOrPhysics wState n = .ok q →
        dictLookup rec n = some (StoredValue.quant q)) :=
  store_single_record ["u", "v"] ["column_integrated_qv"]
    (Time.timedelta 7) wState (by decide) (by decide) (by decide)
